import Mathlib

/-!
Shallow embedding of `src/project_folder/movie_selector.py` (a movie-catalog
browser over a SQLite store) and proofs about its query layer.

The relational store has three tables: `Movie (Id, Name, Year, Rating)`,
`Genre (Id, Genre_name)`, `Movie_Genre (Movie_Id, Genre_Id)`.  The Python
functions `fetch_all_movies` and `apply_filters` each run a single SQL
query of the shape

  SELECT Movie.Id, Movie.Name, Movie.Year, Movie.Rating,
         GROUP_CONCAT(Genre.Genre_name, ', ')
  FROM Movie
  LEFT JOIN Movie_Genre ON Movie.Id = Movie_Genre.Movie_Id
  LEFT JOIN Genre ON Genre.Id = Movie_Genre.Genre_Id
  [WHERE ...] GROUP BY Movie.Id [HAVING ...]
  ORDER BY Movie.Year DESC, Movie.Name ASC

which we embed as explicit list computations: build the left-join rows,
filter them (WHERE), group them by movie id (GROUP BY), aggregate the genre
names (GROUP_CONCAT, with SQL NULL as `Option`), filter the groups
(HAVING), and sort the result rows (ORDER BY).  SQLite REAL ratings are
modelled as `Rat` (the program only compares them with `>=`).
-/

/-- A row of the `Movie` table. -/
structure Movie where
  id : Nat
  name : String
  year : Int
  rating : Rat
deriving DecidableEq, Repr

/-- A row of the `Genre` table. -/
structure Genre where
  id : Nat
  name : String
deriving DecidableEq, Repr

/-- A row of the `Movie_Genre` join table. -/
structure MovieGenre where
  movie_id : Nat
  genre_id : Nat
deriving DecidableEq, Repr

/-- The contents of the relational store. -/
structure Database where
  movies : List Movie
  genres : List Genre
  movie_genres : List MovieGenre
deriving DecidableEq, Repr

/-- The database file: `present = false` models a missing `database.db`. -/
structure DBFile where
  present : Bool
  db : Database
deriving DecidableEq, Repr

/-- Failure mode of `connect_db`: the store file does not exist
(`FileNotFoundError` in the script). -/
inductive DBError where
  | storeUnavailable
deriving DecidableEq, Repr

/-- A row of the two-fold left join before grouping: the movie columns plus
the (nullable) joined genre name. -/
structure JoinRow where
  movie : Movie
  gname : Option String
deriving DecidableEq, Repr

/-- Python's `str.lower()`, modelled structurally on the character list so
that concrete instances evaluate (ASCII lowering, as `Char.toLower`). -/
def pyLower (s : String) : String :=
  ⟨s.data.map Char.toLower⟩

/-- Python's `str.isdigit()` on the stripped tokens: non-empty and all
decimal digits. -/
def pyIsdigit (s : String) : Bool :=
  !s.data.isEmpty && s.data.all Char.isDigit

/-- Python's `int(tok)` on a string of decimal digits. -/
def pyInt (s : String) : Nat :=
  s.data.foldl (fun acc c => acc * 10 + (c.toNat - 48)) 0

/-- Python's `str.strip()`: drop leading and trailing whitespace. -/
def pyStrip (s : String) : String :=
  ⟨((s.data.dropWhile Char.isWhitespace).reverse.dropWhile Char.isWhitespace).reverse⟩

/-- Python's `raw.split(",")`. -/
def pySplitComma (s : String) : List String :=
  (s.data.splitOn ',').map (fun cs => ⟨cs⟩)

/-- The rows that the movie `m` contributes to
`Movie LEFT JOIN Movie_Genre ON Movie.Id = Movie_Genre.Movie_Id
LEFT JOIN Genre ON Genre.Id = Movie_Genre.Genre_Id`:
one row per matching `(Movie_Genre, Genre)` pair, with a NULL genre name
when a join partner is missing. -/
def movieJoinRows (db : Database) (m : Movie) : List JoinRow :=
  let mgs := db.movie_genres.filter (fun mg => mg.movie_id == m.id)
  if mgs.isEmpty then [⟨m, none⟩]
  else mgs.flatMap (fun mg =>
    let gs := db.genres.filter (fun g => g.id == mg.genre_id)
    if gs.isEmpty then [⟨m, none⟩] else gs.map (fun g => ⟨m, some g.name⟩))

/-- All rows of the two-fold left join, in table order. -/
def leftJoinRows (db : Database) : List JoinRow :=
  db.movies.flatMap (movieJoinRows db)

/-- First-occurrence deduplication (accumulating the keys already seen):
the order in which `GROUP BY Movie.Id` produces its groups. -/
def dedupFirstAux (seen : List Nat) : List Nat → List Nat
  | [] => []
  | a :: l => if a ∈ seen then dedupFirstAux seen l else a :: dedupFirstAux (a :: seen) l

/-- The distinct values of a list, keeping first occurrences in order. -/
def dedupFirst (l : List Nat) : List Nat :=
  dedupFirstAux [] l

/-- `GROUP BY Movie.Id`: the list of groups of join rows sharing a movie id,
keyed in order of first occurrence. -/
def groupRows (rows : List JoinRow) : List (List JoinRow) :=
  (dedupFirst (rows.map (fun r => r.movie.id))).map
    (fun k => rows.filter (fun r => r.movie.id == k))

/-- `GROUP_CONCAT(x, ', ')`: SQL NULL (here: an empty group of non-null
values) stays NULL, otherwise the non-null values joined by the separator. -/
def groupConcat (names : List String) : Option String :=
  match names with
  | [] => none
  | ns => some (String.intercalate ", " ns)

/-- A row of the result set of `fetch_all_movies` / `apply_filters`, i.e.
one of the Python dicts `{"id", "title", "year", "rating", "genres"}`. -/
structure ResultRow where
  id : Nat
  title : String
  year : Int
  rating : Rat
  genres : String
deriving DecidableEq, Repr

/-- Turn one `GROUP BY` group into a result row: the bare columns come from
a representative row and `GROUP_CONCAT` aggregates the non-null genre
names; the Python `r[4] or ""` turns NULL into `""`. -/
def toResultRow (g : List JoinRow) : ResultRow :=
  match g with
  | [] => ⟨0, "", 0, 0, ""⟩
  | r :: _ =>
    ⟨r.movie.id, r.movie.name, r.movie.year, r.movie.rating,
      (groupConcat (g.filterMap (fun x => x.gname))).getD ""⟩

/-- `ORDER BY Movie.Year DESC, Movie.Name ASC` as a Boolean total preorder
on result rows. -/
def rowLe (a b : ResultRow) : Bool :=
  decide (b.year < a.year) || (decide (a.year = b.year) && decide (a.title ≤ b.title))

/-- The final `ORDER BY` of both queries (any sort respecting `rowLe`; SQLite
guarantees no stability, so the algorithm is a model choice). -/
def sortRows (rs : List ResultRow) : List ResultRow :=
  rs.insertionSort (fun a b => rowLe a b = true)

/-- The query body of `fetch_all_movies`: left join, group by movie id,
aggregate genre names, order by year descending then title ascending. -/
def fetchAllQuery (db : Database) : List ResultRow :=
  sortRows ((groupRows (leftJoinRows db)).map toResultRow)

/-- The WHERE clause `lower(Genre.Genre_name) IN (<selected, lowered>)`:
NULL genre names fail the predicate (SQL three-valued logic drops them). -/
def genreRowMatch (lowSel : List String) (r : JoinRow) : Bool :=
  match r.gname with
  | some n => decide (pyLower n ∈ lowSel)
  | none => false

/-- `HAVING COUNT(DISTINCT lower(Genre.Genre_name))`: the number of distinct
lowered non-null genre names in a group. -/
def distinctLowerCount (g : List JoinRow) : Nat :=
  ((g.filterMap (fun r => r.gname)).map pyLower).dedup.length

/-- The query body of `apply_filters(selected_genres, selected_years,
min_rating, require_all_genres)`: the same join as `fetchAllQuery`, with the
conditionally-appended WHERE clauses on genre (lowered, `IN`), year (`IN`)
and rating (`>=`), the conditional `HAVING COUNT(DISTINCT ...) >= ?` for
ALL-mode, and the same ORDER BY. -/
def applyFiltersQuery (db : Database) (selected_genres : List String)
    (selected_years : List Int) (min_rating : Option Rat)
    (require_all_genres : Bool) : List ResultRow :=
  let rows := leftJoinRows db
  let rows := if selected_genres.isEmpty then rows
    else rows.filter (genreRowMatch (selected_genres.map pyLower))
  let rows := if selected_years.isEmpty then rows
    else rows.filter (fun r => decide (r.movie.year ∈ selected_years))
  let rows := match min_rating with
    | none => rows
    | some mr => rows.filter (fun r => decide (mr ≤ r.movie.rating))
  let groups := groupRows rows
  let groups := if !selected_genres.isEmpty && require_all_genres then
      groups.filter (fun g => decide (selected_genres.length ≤ distinctLowerCount g))
    else groups
  sortRows (groups.map toResultRow)

/-- `connect_db`: open the store, raising `FileNotFoundError` when
`database.db` is missing. -/
def connect_db (f : DBFile) : Except DBError Database :=
  if f.present then .ok f.db else .error .storeUnavailable

/-- Ascending lexicographic sort of strings (`ORDER BY Genre_name`). -/
def sortStrAsc (l : List String) : List String :=
  l.insertionSort (fun a b => a ≤ b)

/-- Descending sort of integers (`ORDER BY Year DESC`). -/
def sortIntDesc (l : List Int) : List Int :=
  l.insertionSort (fun a b => b ≤ a)

/-- `get_available_genres`: `SELECT DISTINCT Genre_name FROM Genre ORDER BY
Genre_name;`. -/
def get_available_genres (f : DBFile) : Except DBError (List String) :=
  (connect_db f).map (fun db => sortStrAsc (db.genres.map (fun g => g.name)).dedup)

/-- `get_available_years`: `SELECT DISTINCT Year FROM Movie ORDER BY Year
DESC;`. -/
def get_available_years (f : DBFile) : Except DBError (List Int) :=
  (connect_db f).map (fun db => sortIntDesc (db.movies.map (fun m => m.year)).dedup)

/-- `fetch_all_movies`: connect, run the unfiltered query. -/
def fetch_all_movies (f : DBFile) : Except DBError (List ResultRow) :=
  (connect_db f).map fetchAllQuery

/-- `apply_filters`: connect, run the filtered query. -/
def apply_filters (f : DBFile) (selected_genres : List String)
    (selected_years : List Int) (min_rating : Option Rat)
    (require_all_genres : Bool) : Except DBError (List ResultRow) :=
  (connect_db f).map
    (fun db => applyFiltersQuery db selected_genres selected_years min_rating require_all_genres)

/-- `[t.strip() for t in raw.split(",") if t.strip()]`. -/
def parseTokens (raw : String) : List String :=
  ((pySplitComma raw).map pyStrip).filter (fun t => !t.data.isEmpty)

/-- The meaning of one token in index mode: `idx = int(tok) - 1` selects
`available[idx]` when `0 <= idx < len(available)`, nothing otherwise. -/
def indexResolve (available : List String) (tok : String) : Option String :=
  if pyInt tok = 0 then none else available[pyInt tok - 1]?

/-- The index-mode loop of `prompt_choose_genres`: first component the
chosen genre names in order, second the tokens dropped with an
out-of-range warning. -/
def chooseByIndex (available : List String) : List String → List String × List String
  | [] => ([], [])
  | tok :: rest =>
    let res := chooseByIndex available rest
    if pyInt tok = 0 then (res.1, tok :: res.2)
    else
      match available[pyInt tok - 1]? with
      | some g => (g :: res.1, res.2)
      | none => (res.1, tok :: res.2)

/-- The `lower_map` dictionary lookup: `{g.lower(): g for g in available}`
keeps the last entry for each lowered key. -/
def nameResolve (available : List String) (tok : String) : Option String :=
  available.reverse.find? (fun g => pyLower g == pyLower tok)

/-- The name-mode loop of `prompt_choose_genres`: case-insensitive lookup,
unmatched tokens dropped with a warning. -/
def chooseByName (available : List String) : List String → List String × List String
  | [] => ([], [])
  | tok :: rest =>
    let res := chooseByName available rest
    match available.reverse.find? (fun g => pyLower g == pyLower tok) with
    | some g => (g :: res.1, res.2)
    | none => (res.1, tok :: res.2)

/-- The batch dispatch of `prompt_choose_genres`:
`if tokens and all(tok.isdigit() for tok in tokens)` selects index mode for
the whole batch, otherwise name mode for the whole batch. -/
def chooseGenres (available : List String) (tokens : List String) :
    List String × List String :=
  if !tokens.isEmpty && tokens.all pyIsdigit then chooseByIndex available tokens
  else chooseByName available tokens

/-- The pure part of `prompt_choose_genres` on one raw input line: an empty
entry keeps the current selection, otherwise the token batch is resolved. -/
def prompt_choose_genres (available current : List String) (raw : String) :
    List String :=
  if pyStrip raw = "" then current
  else (chooseGenres available (parseTokens (pyStrip raw))).1

/-- A small concrete store used for witnesses and counterexamples: movie 1
has genres Action and Drama, movie 2 has genre Comedy, movie 3 has no
genres. -/
def demoDb : Database :=
  { movies := [⟨1, "M", 2000, mkRat 79 10⟩, ⟨2, "N", 1999, 8⟩, ⟨3, "Z", 2001, 6⟩],
    genres := [⟨10, "Action"⟩, ⟨11, "Drama"⟩, ⟨12, "Comedy"⟩],
    movie_genres := [⟨1, 10⟩, ⟨1, 11⟩, ⟨2, 12⟩] }

/-- The full list of genre names attached to a movie, in join order: the
movie's genre annotation in an unfiltered query. -/
def movieGenreNames (db : Database) (m : Movie) : List String :=
  (movieJoinRows db m).filterMap (fun r => r.gname)

/-- The spec's ALL-mode genre predicate: the movie's genre-name set,
compared case-insensitively, contains every selected genre. -/
def hasAllGenres (db : Database) (m : Movie) (sel : List String) : Prop :=
  ∀ s ∈ sel, pyLower s ∈ (movieGenreNames db m).map pyLower

instance (db : Database) (m : Movie) (sel : List String) :
    Decidable (hasAllGenres db m sel) :=
  inferInstanceAs (Decidable (∀ s ∈ sel, pyLower s ∈ (movieGenreNames db m).map pyLower))


/-! ## Basic lemmas about the query building blocks -/

theorem sortRows_perm (l : List ResultRow) : (sortRows l).Perm l :=
  List.perm_insertionSort _ l

theorem mem_sortRows {r : ResultRow} {l : List ResultRow} : r ∈ sortRows l ↔ r ∈ l :=
  (sortRows_perm l).mem_iff

theorem mem_dedupFirstAux : ∀ (l seen : List Nat) (a : Nat),
    a ∈ dedupFirstAux seen l ↔ a ∈ l ∧ a ∉ seen := by
  intro l
  induction l with
  | nil => simp [dedupFirstAux]
  | cons b t ih =>
    intro seen a
    by_cases hb : b ∈ seen
    · simp only [dedupFirstAux, hb, if_true, ite_true, ih, List.mem_cons]
      constructor
      · rintro ⟨h1, h2⟩
        exact ⟨Or.inr h1, h2⟩
      · rintro ⟨rfl | h1, h2⟩
        · exact absurd hb h2
        · exact ⟨h1, h2⟩
    · simp only [dedupFirstAux, hb, if_false, ite_false, List.mem_cons, ih]
      constructor
      · rintro (rfl | ⟨h1, h2⟩)
        · exact ⟨Or.inl rfl, hb⟩
        · exact ⟨Or.inr h1, fun hs => h2 (Or.inr hs)⟩
      · rintro ⟨rfl | h1, h2⟩
        · exact Or.inl rfl
        · by_cases hab : a = b
          · exact Or.inl hab
          · exact Or.inr ⟨h1, fun h => h.elim hab h2⟩

theorem mem_dedupFirst {a : Nat} {l : List Nat} : a ∈ dedupFirst l ↔ a ∈ l := by
  rw [dedupFirst, mem_dedupFirstAux]
  simp

theorem nodup_dedupFirstAux : ∀ (l seen : List Nat), (dedupFirstAux seen l).Nodup := by
  intro l
  induction l with
  | nil => intro seen; simp [dedupFirstAux]
  | cons b t ih =>
    intro seen
    by_cases hb : b ∈ seen
    · simpa only [dedupFirstAux, hb, if_true, ite_true] using ih seen
    · simp only [dedupFirstAux, hb, if_false, ite_false]
      refine List.nodup_cons.mpr ⟨fun hmem => ?_, ih _⟩
      exact ((mem_dedupFirstAux t (b :: seen) b).mp hmem).2 (List.mem_cons_self b seen)

theorem nodup_dedupFirst (l : List Nat) : (dedupFirst l).Nodup :=
  nodup_dedupFirstAux l []

theorem movie_of_mem_movieJoinRows {db : Database} {m : Movie} {r : JoinRow}
    (h : r ∈ movieJoinRows db m) : r.movie = m := by
  simp only [movieJoinRows] at h
  split at h
  · simp at h
    subst h
    rfl
  · obtain ⟨mg, _, hr⟩ := List.mem_flatMap.mp h
    split at hr
    · simp at hr
      subst hr
      rfl
    · obtain ⟨g, _, hg⟩ := List.mem_map.mp hr
      subst hg
      rfl

theorem movieJoinRows_ne_nil (db : Database) (m : Movie) : movieJoinRows db m ≠ [] := by
  simp only [movieJoinRows]
  split
  · simp
  · next hmgs =>
    intro hnil
    rw [List.flatMap_eq_nil_iff] at hnil
    have hne : List.filter (fun mg => mg.movie_id == m.id) db.movie_genres ≠ [] := by
      simpa [List.isEmpty_iff] using hmgs
    obtain ⟨mg, hmg⟩ := List.exists_mem_of_ne_nil _ hne
    have := hnil mg hmg
    split at this
    · simp at this
    · next hgs =>
      rw [List.map_eq_nil_iff] at this
      exact hgs (by simp [this])

theorem exists_mg_of_gname {db : Database} {m : Movie} {r : JoinRow} {n : String}
    (h : r ∈ movieJoinRows db m) (hg : r.gname = some n) :
    ∃ mg ∈ db.movie_genres, mg.movie_id = m.id := by
  simp only [movieJoinRows] at h
  split at h
  · simp at h
    subst h
    simp at hg
  · obtain ⟨mg, hmg, hr⟩ := List.mem_flatMap.mp h
    have hmg' := List.mem_filter.mp hmg
    exact ⟨mg, hmg'.1, by simpa using hmg'.2⟩

theorem filter_flatMap {α β : Type} (l : List α) (f : α → List β) (p : β → Bool) :
    (l.flatMap f).filter p = l.flatMap (fun a => (f a).filter p) := by
  induction l with
  | nil => rfl
  | cons x xs ih => simp [List.flatMap_cons, List.filter_append, ih]

theorem mem_groupRows {rows : List JoinRow} {g : List JoinRow} :
    g ∈ groupRows rows ↔
      ∃ k ∈ dedupFirst (rows.map (fun r => r.movie.id)),
        g = rows.filter (fun r => r.movie.id == k) := by
  simp only [groupRows, List.mem_map]
  constructor
  · rintro ⟨k, hk, rfl⟩
    exact ⟨k, hk, rfl⟩
  · rintro ⟨k, hk, rfl⟩
    exact ⟨k, hk, rfl⟩

theorem group_ne_nil {rows : List JoinRow} {k : Nat}
    (h : k ∈ rows.map (fun r => r.movie.id)) :
    rows.filter (fun r => r.movie.id == k) ≠ [] := by
  obtain ⟨r, hr, hid⟩ := List.mem_map.mp h
  intro hnil
  have hmem : r ∈ rows.filter (fun r => r.movie.id == k) :=
    List.mem_filter.mpr ⟨hr, by simp [hid]⟩
  rw [hnil] at hmem
  exact absurd hmem (List.not_mem_nil r)

theorem toResultRow_id {rows : List JoinRow} {k : Nat}
    (h : k ∈ rows.map (fun r => r.movie.id)) :
    (toResultRow (rows.filter (fun r => r.movie.id == k))).id = k := by
  have hne := group_ne_nil h
  cases hg : rows.filter (fun r => r.movie.id == k) with
  | nil => exact absurd hg hne
  | cons r t =>
    have hr : r ∈ rows.filter (fun x => x.movie.id == k) := by
      rw [hg]
      exact List.mem_cons_self r t
    have := (List.mem_filter.mp hr).2
    simp only [toResultRow]
    simpa using this

/-- The general membership characterization of both query outputs: a result
row is in the output iff it is the aggregated row of the (HAVING-passing)
`GROUP BY` group of some movie id occurring in the filtered join rows. -/
theorem mem_queryOutput (rows : List JoinRow) (hcond : List JoinRow → Bool) (r : ResultRow) :
    r ∈ sortRows (((groupRows rows).filter hcond).map toResultRow) ↔
      ∃ k, k ∈ rows.map (fun x => x.movie.id) ∧
        hcond (rows.filter (fun x => x.movie.id == k)) = true ∧
        r = toResultRow (rows.filter (fun x => x.movie.id == k)) := by
  rw [mem_sortRows, List.mem_map]
  constructor
  · rintro ⟨g, hg, rfl⟩
    rw [List.mem_filter] at hg
    obtain ⟨hgg, hcd⟩ := hg
    obtain ⟨k, hk, rfl⟩ := mem_groupRows.mp hgg
    exact ⟨k, mem_dedupFirst.mp hk, hcd, rfl⟩
  · rintro ⟨k, hk, hcd, rfl⟩
    exact ⟨_, List.mem_filter.mpr ⟨mem_groupRows.mpr ⟨k, mem_dedupFirst.mpr hk, rfl⟩, hcd⟩, rfl⟩

theorem mem_queryOutput_all (rows : List JoinRow) (r : ResultRow) :
    r ∈ sortRows ((groupRows rows).map toResultRow) ↔
      ∃ k, k ∈ rows.map (fun x => x.movie.id) ∧
        r = toResultRow (rows.filter (fun x => x.movie.id == k)) := by
  have h := mem_queryOutput rows (fun _ => true) r
  rw [List.filter_true] at h
  simpa using h

/-- The movie ids of any query output are pairwise distinct (`GROUP BY`
produces one row per key). -/
theorem nodup_output_ids (rows : List JoinRow) (hcond : List JoinRow → Bool) :
    ((sortRows (((groupRows rows).filter hcond).map toResultRow)).map
      (fun r => r.id)).Nodup := by
  have hperm : (sortRows (((groupRows rows).filter hcond).map toResultRow)).Perm
      (((groupRows rows).filter hcond).map toResultRow) := sortRows_perm _
  rw [List.Perm.nodup_iff (hperm.map _)]
  unfold groupRows
  rw [List.filter_map]
  simp only [List.map_map]
  have hmapid : List.map
        ((fun r => r.id) ∘ toResultRow ∘ fun k => List.filter (fun r => r.movie.id == k) rows)
        (List.filter (hcond ∘ fun k => List.filter (fun r => r.movie.id == k) rows)
          (dedupFirst (List.map (fun r => r.movie.id) rows)))
      = List.filter (hcond ∘ fun k => List.filter (fun r => r.movie.id == k) rows)
          (dedupFirst (List.map (fun r => r.movie.id) rows)) := by
    conv_rhs => rw [← List.map_id (List.filter
      (hcond ∘ fun k => List.filter (fun r => r.movie.id == k) rows)
      (dedupFirst (List.map (fun r => r.movie.id) rows)))]
    refine List.map_congr_left ?_
    intro k hk
    have hk1 : k ∈ dedupFirst (List.map (fun r => r.movie.id) rows) :=
      (List.mem_filter.mp hk).1
    have hk2 : k ∈ rows.map (fun r => r.movie.id) := mem_dedupFirst.mp hk1
    simpa [Function.comp] using toResultRow_id hk2
  rw [hmapid]
  exact (nodup_dedupFirst _).filter _

theorem groupConcat_getD (ns : List String) :
    (groupConcat ns).getD "" = String.intercalate ", " ns := by
  cases ns <;> rfl

theorem filterMap_gname_filter (l : List JoinRow) (lowSel : List String) :
    (l.filter (genreRowMatch lowSel)).filterMap (fun r => r.gname)
      = (l.filterMap (fun r => r.gname)).filter (fun n => decide (pyLower n ∈ lowSel)) := by
  induction l with
  | nil => rfl
  | cons r t ih =>
    cases hg : r.gname with
    | none => simp [List.filter_cons, genreRowMatch, hg, List.filterMap_cons, ih]
    | some n =>
      by_cases hm : pyLower n ∈ lowSel <;>
        simp [List.filter_cons, genreRowMatch, hg, List.filterMap_cons, hm, ih]

theorem flatMap_group_eq (db : Database) (P : JoinRow → Bool) :
    ∀ (ms : List Movie), (ms.map (fun m => m.id)).Nodup → ∀ {m : Movie}, m ∈ ms →
      ms.flatMap (fun x => ((movieJoinRows db x).filter P).filter
          (fun r => r.movie.id == m.id))
        = (movieJoinRows db m).filter P := by
  intro ms
  induction ms with
  | nil => intro _ m hm; exact absurd hm (List.not_mem_nil m)
  | cons x t ih =>
    intro hnd m hm
    rw [List.map_cons, List.nodup_cons] at hnd
    obtain ⟨hx, hnd'⟩ := hnd
    rw [List.flatMap_cons]
    rcases List.mem_cons.mp hm with rfl | hmt
    · have hchunk : ((movieJoinRows db m).filter P).filter
          (fun r => r.movie.id == m.id) = (movieJoinRows db m).filter P := by
        apply List.filter_eq_self.mpr
        intro r hr
        have := movie_of_mem_movieJoinRows (List.mem_of_mem_filter hr)
        simp [this]
      have hrest : t.flatMap (fun x => ((movieJoinRows db x).filter P).filter
          (fun r => r.movie.id == m.id)) = [] := by
        rw [List.flatMap_eq_nil_iff]
        intro y hy
        rw [List.filter_eq_nil_iff]
        intro r hr
        have hry := movie_of_mem_movieJoinRows (List.mem_of_mem_filter hr)
        have hyid : y.id ≠ m.id := by
          intro he
          exact hx (he ▸ List.mem_map.mpr ⟨y, hy, rfl⟩)
        simp [hry, hyid]
      rw [hchunk, hrest, List.append_nil]
    · have hchunk : ((movieJoinRows db x).filter P).filter
          (fun r => r.movie.id == m.id) = [] := by
        rw [List.filter_eq_nil_iff]
        intro r hr
        have hrx := movie_of_mem_movieJoinRows (List.mem_of_mem_filter hr)
        have hxid : x.id ≠ m.id := by
          intro he
          exact hx (he ▸ List.mem_map.mpr ⟨m, hmt, rfl⟩)
        simp [hrx, hxid]
      rw [hchunk, List.nil_append]
      exact ih hnd' hmt

/-- With pairwise-distinct movie ids, the `GROUP BY` group keyed by `m.id`
over the filtered join rows is exactly `m`'s filtered join rows. -/
theorem group_of_movie (db : Database) (P : JoinRow → Bool)
    (hnd : (db.movies.map (fun m => m.id)).Nodup) {m : Movie} (hm : m ∈ db.movies) :
    ((leftJoinRows db).filter P).filter (fun r => r.movie.id == m.id)
      = (movieJoinRows db m).filter P := by
  rw [leftJoinRows, filter_flatMap, filter_flatMap]
  exact flatMap_group_eq db P db.movies hnd hm

/-- With pairwise-distinct movie ids, `m.id` occurs among the filtered join
rows iff some join row of `m` survives the filter. -/
theorem mem_ids_iff (db : Database) (P : JoinRow → Bool)
    (hnd : (db.movies.map (fun m => m.id)).Nodup) {m : Movie} (hm : m ∈ db.movies) :
    m.id ∈ ((leftJoinRows db).filter P).map (fun r => r.movie.id)
      ↔ (movieJoinRows db m).filter P ≠ [] := by
  constructor
  · intro h
    have := group_ne_nil h
    rwa [group_of_movie db P hnd hm] at this
  · intro h
    obtain ⟨r, hr⟩ := List.exists_mem_of_ne_nil _ h
    have hrj : r ∈ (leftJoinRows db).filter P := by
      refine List.mem_filter.mpr ⟨?_, (List.mem_filter.mp hr).2⟩
      exact List.mem_flatMap.mpr ⟨m, hm, List.mem_of_mem_filter hr⟩
    exact List.mem_map.mpr ⟨r, hrj, by rw [movie_of_mem_movieJoinRows (List.mem_of_mem_filter hr)]⟩

/-- Every group key of a query comes from some movie of the store. -/
theorem key_is_movie_id (db : Database) (P : JoinRow → Bool) {k : Nat}
    (h : k ∈ ((leftJoinRows db).filter P).map (fun r => r.movie.id)) :
    ∃ m ∈ db.movies, k = m.id := by
  obtain ⟨r, hr, rfl⟩ := List.mem_map.mp h
  obtain ⟨m, hm, hrm⟩ := List.mem_flatMap.mp (List.mem_of_mem_filter hr)
  exact ⟨m, hm, by rw [movie_of_mem_movieJoinRows hrm]⟩

/-- Splitting a row predicate into a genre part and a part depending only on
the movie: on one movie's join rows, the movie part is all-or-nothing. -/
theorem movie_filter_split (db : Database) (m : Movie) (P Q : JoinRow → Bool)
    (mp : Movie → Bool) (hPQ : ∀ r, P r = (Q r && mp r.movie)) :
    (movieJoinRows db m).filter P
      = if mp m then (movieJoinRows db m).filter Q else [] := by
  split
  · next hmp =>
    apply List.filter_congr
    intro r hr
    rw [hPQ, movie_of_mem_movieJoinRows hr, hmp, Bool.and_true]
  · next hmp =>
    rw [List.filter_eq_nil_iff]
    intro r hr
    have hmpf : mp m = false := Bool.not_eq_true (mp m) ▸ hmp
    rw [hPQ, movie_of_mem_movieJoinRows hr, hmpf, Bool.and_false]
    simp

theorem filter_genre_ne_nil_iff (l : List JoinRow) (lowSel : List String) :
    l.filter (genreRowMatch lowSel) ≠ [] ↔
      (l.filterMap (fun r => r.gname)).filter
        (fun n => decide (pyLower n ∈ lowSel)) ≠ [] := by
  rw [← filterMap_gname_filter]
  constructor
  · intro h
    obtain ⟨r, hr⟩ := List.exists_mem_of_ne_nil _ h
    have hp := (List.mem_filter.mp hr).2
    cases hg : r.gname with
    | none => rw [genreRowMatch, hg] at hp; exact absurd hp (by simp)
    | some n =>
      exact List.ne_nil_of_mem (List.mem_filterMap.mpr ⟨r, hr, hg⟩)
  · intro h hnil
    rw [hnil] at h
    exact h rfl

/-- The counting argument behind ALL-mode: with pairwise distinct lowered
selections, the count of distinct matching lowered names reaches the number
of selections (and a match exists) iff every selection occurs among the
names, case-insensitively. -/
theorem count_core (names sel : List String) (hne : sel ≠ [])
    (hnd : (sel.map pyLower).Nodup) :
    (names.filter (fun n => decide (pyLower n ∈ sel.map pyLower)) ≠ [] ∧
        sel.length ≤ ((names.filter
          (fun n => decide (pyLower n ∈ sel.map pyLower))).map
            pyLower).dedup.length)
      ↔ ∀ s ∈ sel, pyLower s ∈ names.map pyLower := by
  set L := sel.map pyLower with hL
  set M := (names.filter (fun n => decide (pyLower n ∈ L))).map pyLower with hM
  have hM_mem : ∀ x ∈ M, x ∈ L ∧ x ∈ names.map pyLower := by
    intro x hx
    obtain ⟨n, hn, rfl⟩ := List.mem_map.mp hx
    refine ⟨by simpa using (List.mem_filter.mp hn).2, ?_⟩
    exact List.mem_map.mpr ⟨n, List.mem_of_mem_filter hn, rfl⟩
  have hLcard : L.toFinset.card = sel.length := by
    rw [List.card_toFinset, hnd.dedup, hL, List.length_map]
  have hMcard : M.toFinset.card = M.dedup.length := List.card_toFinset M
  constructor
  · rintro ⟨-, hcnt⟩ s hs
    have hsub : M.toFinset ⊆ L.toFinset := by
      intro x hx
      exact List.mem_toFinset.mpr (hM_mem x (List.mem_toFinset.mp hx)).1
    have heq : M.toFinset = L.toFinset := by
      apply Finset.eq_of_subset_of_card_le hsub
      rw [hLcard, hMcard]
      exact hcnt
    have hsL : pyLower s ∈ L := List.mem_map.mpr ⟨s, hs, rfl⟩
    have : pyLower s ∈ M := by
      have := List.mem_toFinset.mpr hsL
      rw [← heq] at this
      exact List.mem_toFinset.mp this
    exact (hM_mem _ this).2
  · intro hall
    have hLM : ∀ x ∈ L, x ∈ M := by
      intro x hx
      obtain ⟨s, hs, rfl⟩ := List.mem_map.mp hx
      obtain ⟨n, hn, hlow⟩ := List.mem_map.mp (hall s hs)
      refine List.mem_map.mpr ⟨n, List.mem_filter.mpr ⟨hn, ?_⟩, hlow⟩
      simp [hlow, hx]
    constructor
    · obtain ⟨s, hs⟩ := List.exists_mem_of_ne_nil sel hne
      have : pyLower s ∈ M := hLM _ (List.mem_map.mpr ⟨s, hs, rfl⟩)
      obtain ⟨n, hn, _⟩ := List.mem_map.mp this
      exact List.ne_nil_of_mem hn
    · have hsub : L.toFinset ⊆ M.toFinset := by
        intro x hx
        exact List.mem_toFinset.mpr (hLM x (List.mem_toFinset.mp hx))
      calc sel.length = L.toFinset.card := hLcard.symm
        _ ≤ M.toFinset.card := Finset.card_le_card hsub
        _ = M.dedup.length := hMcard

theorem toResultRow_genres (g : List JoinRow) :
    (toResultRow g).genres = (groupConcat (g.filterMap (fun x => x.gname))).getD "" := by
  cases g <;> rfl

/-- Core of the corrected C1: over genre-filtered join rows (plus any
movie-level filter and any HAVING condition), every output row belongs to a
store movie and its annotation is the comma-join of that movie's genre
names that match the genre filter; and output movie ids are pairwise
distinct. -/
theorem c1_full (db : Database) (lowSel : List String) (P : JoinRow → Bool)
    (mp : Movie → Bool) (hP : ∀ r, P r = (genreRowMatch lowSel r && mp r.movie))
    (hcond : List JoinRow → Bool)
    (hids : (db.movies.map (fun x => x.id)).Nodup) :
    ((sortRows (((groupRows ((leftJoinRows db).filter P)).filter hcond).map
        toResultRow)).map (fun r => r.id)).Nodup ∧
    ∀ row ∈ sortRows (((groupRows ((leftJoinRows db).filter P)).filter hcond).map
        toResultRow),
      ∃ m ∈ db.movies, row.id = m.id ∧
        row.genres = String.intercalate ", "
          ((movieGenreNames db m).filter (fun n => decide (pyLower n ∈ lowSel))) := by
  refine ⟨nodup_output_ids _ _, ?_⟩
  intro row hrow
  obtain ⟨k, hk, -, rfl⟩ := (mem_queryOutput _ hcond _).mp hrow
  obtain ⟨m, hm, rfl⟩ := key_is_movie_id db P hk
  refine ⟨m, hm, toResultRow_id hk, ?_⟩
  have hgrp : ((leftJoinRows db).filter P).filter (fun r => r.movie.id == m.id)
      = (movieJoinRows db m).filter P := group_of_movie db P hids hm
  have hsplit := movie_filter_split db m P (genreRowMatch lowSel) mp hP
  have hne : ((leftJoinRows db).filter P).filter (fun r => r.movie.id == m.id) ≠ [] :=
    group_ne_nil hk
  have hmp : mp m = true := by
    by_contra hmp
    have hmpf : mp m = false := Bool.not_eq_true (mp m) ▸ hmp
    rw [hgrp, hsplit, hmpf] at hne
    simp at hne
  rw [toResultRow_genres, hgrp, hsplit, hmp]
  simp only [eq_self_iff_true, if_true, ite_true]
  rw [groupConcat_getD, filterMap_gname_filter]
  rfl

/-! ## Normal forms of the queries for special arguments -/

theorem fetchAllQuery_def (db : Database) :
    fetchAllQuery db = sortRows ((groupRows (leftJoinRows db)).map toResultRow) := rfl

theorem applyFiltersQuery_rating (db : Database) (mr : Rat) (b : Bool) :
    applyFiltersQuery db [] [] (some mr) b
      = sortRows ((groupRows ((leftJoinRows db).filter
          (fun r => decide (mr ≤ r.movie.rating)))).map toResultRow) := rfl

theorem applyFiltersQuery_nofilter (db : Database) (b : Bool) :
    applyFiltersQuery db [] [] none b = fetchAllQuery db := by
  simp only [applyFiltersQuery, fetchAllQuery, List.isEmpty_nil, eq_self_iff_true,
    if_true, ite_true, Bool.not_true, Bool.false_and, Bool.false_eq_true, if_false,
    ite_false]

/-! ## Ordering of the results -/

theorem sortRows_pairwise (l : List ResultRow) :
    (sortRows l).Pairwise
      (fun a b => a.year > b.year ∨ (a.year = b.year ∧ a.title ≤ b.title)) := by
  have htrans : ∀ (a b c : ResultRow),
      rowLe a b = true → rowLe b c = true → rowLe a c = true := by
    intro a b c hab hbc
    simp only [rowLe, Bool.or_eq_true, Bool.and_eq_true, decide_eq_true_eq] at hab hbc ⊢
    rcases hab with h1 | ⟨h1, h2⟩ <;> rcases hbc with h3 | ⟨h3, h4⟩
    · exact Or.inl (lt_trans h3 h1)
    · exact Or.inl (h3 ▸ h1)
    · exact Or.inl (by rw [h1]; exact h3)
    · exact Or.inr ⟨h1.trans h3, le_trans h2 h4⟩
  have htot : ∀ (a b : ResultRow), rowLe a b = true ∨ rowLe b a = true := by
    intro a b
    simp only [rowLe, Bool.or_eq_true, Bool.and_eq_true, decide_eq_true_eq]
    rcases lt_trichotomy a.year b.year with h | h | h
    · exact Or.inr (Or.inl h)
    · rcases le_total a.title b.title with ht | ht
      · exact Or.inl (Or.inr ⟨h, ht⟩)
      · exact Or.inr (Or.inr ⟨h.symm, ht⟩)
    · exact Or.inl (Or.inl h)
  haveI hT : IsTotal ResultRow (fun a b => rowLe a b = true) := ⟨htot⟩
  haveI hR : IsTrans ResultRow (fun a b => rowLe a b = true) := ⟨htrans⟩
  have hs : (sortRows l).Pairwise (fun a b => rowLe a b = true) :=
    List.sorted_insertionSort _ l
  refine hs.imp ?_
  intro a b hab
  simp only [rowLe, Bool.or_eq_true, Bool.and_eq_true, decide_eq_true_eq] at hab
  exact hab

/-! ## Loop characterizations of the genre-selection prompt -/

theorem chooseByIndex_spec (available : List String) : ∀ (tokens : List String),
    (chooseByIndex available tokens).1 = tokens.filterMap (indexResolve available) ∧
    (chooseByIndex available tokens).2
      = tokens.filter (fun t => (indexResolve available t).isNone) := by
  intro tokens
  induction tokens with
  | nil => exact ⟨rfl, rfl⟩
  | cons tok rest ih =>
    by_cases hz : pyInt tok = 0
    · simp [chooseByIndex, indexResolve, hz, ih.1, ih.2, List.filterMap_cons,
        List.filter_cons]
    · cases hidx : available[pyInt tok - 1]? with
      | none =>
        simp [chooseByIndex, indexResolve, hz, hidx, ih.1, ih.2,
          List.filterMap_cons, List.filter_cons]
      | some g =>
        simp [chooseByIndex, indexResolve, hz, hidx, ih.1, ih.2,
          List.filterMap_cons, List.filter_cons]

theorem chooseByName_spec (available : List String) : ∀ (tokens : List String),
    (chooseByName available tokens).1 = tokens.filterMap (nameResolve available) ∧
    (chooseByName available tokens).2
      = tokens.filter (fun t => (nameResolve available t).isNone) := by
  intro tokens
  induction tokens with
  | nil => exact ⟨rfl, rfl⟩
  | cons tok rest ih =>
    cases hfind : available.reverse.find? (fun g => pyLower g == pyLower tok) with
    | none =>
      simp [chooseByName, nameResolve, hfind, ih.1, ih.2, List.filterMap_cons,
        List.filter_cons]
    | some g =>
      simp [chooseByName, nameResolve, hfind, ih.1, ih.2, List.filterMap_cons,
        List.filter_cons]

/-! ## The duplicate-selection counting bound -/

theorem count_lt_of_dup (sel : List String) (g : List JoinRow)
    (hdup : ¬ (sel.map pyLower).Nodup)
    (hsub : ∀ r ∈ g, genreRowMatch (sel.map pyLower) r = true) :
    distinctLowerCount g < sel.length := by
  set L := sel.map pyLower with hL
  set M := (g.filterMap (fun r => r.gname)).map pyLower with hM
  have hsub' : ∀ x ∈ M, x ∈ L := by
    intro x hx
    obtain ⟨n, hn, rfl⟩ := List.mem_map.mp hx
    obtain ⟨r, hr, hgn⟩ := List.mem_filterMap.mp hn
    have := hsub r hr
    rw [genreRowMatch, hgn] at this
    exact of_decide_eq_true this
  have h1 : distinctLowerCount g = M.toFinset.card := by
    rw [distinctLowerCount, List.card_toFinset]
  have h2 : M.toFinset.card ≤ L.toFinset.card := by
    apply Finset.card_le_card
    intro x hx
    exact List.mem_toFinset.mpr (hsub' x (List.mem_toFinset.mp hx))
  have h3 : L.toFinset.card = L.dedup.length := List.card_toFinset L
  have h4 : L.dedup.length < L.length := by
    rcases Nat.lt_or_ge L.dedup.length L.length with h | h
    · exact h
    · exfalso
      have hle : L.dedup.length ≤ L.length := (List.dedup_sublist L).length_le
      have heq : L.dedup = L := (List.dedup_sublist L).eq_of_length (Nat.le_antisymm hle h)
      exact hdup (heq ▸ List.nodup_dedup L)
  have h5 : L.length = sel.length := by rw [hL, List.length_map]
  omega

/-! ## The claims -/

/-- C1 counterexample: with movie 1 tagged Action and Drama, filtering on
`["action"]` returns one row for the movie whose annotation is `"Action"`,
not the full genre list `"Action, Drama"` — the WHERE clause restricts the
join rows before `GROUP_CONCAT`, so the annotation lists only the matched
genres, refuting the claim that it lists all of the movie's genres. -/
theorem c1_counterexample :
    ¬ (∀ row ∈ applyFiltersQuery demoDb ["action"] [] none false,
        ∃ m ∈ demoDb.movies, row.id = m.id ∧
          row.genres = String.intercalate ", " (movieGenreNames demoDb m)) := by
  decide

/-- C1 (amended): for every filter state with non-empty selected genres,
each row returned by `apply_filters` is deduplicated to one row per movie,
and its genre annotation lists the movie's genres that match the filter
(comma-joined, in join order), not all of the movie's genres. -/
theorem c1_dedup_and_matched_genres (db : Database) (sel : List String) (yrs : List Int)
    (mr : Option Rat) (req : Bool) (hne : sel ≠ [])
    (hids : (db.movies.map (fun x => x.id)).Nodup) :
    ((applyFiltersQuery db sel yrs mr req).map (fun r => r.id)).Nodup ∧
    ∀ row ∈ applyFiltersQuery db sel yrs mr req,
      ∃ m ∈ db.movies, row.id = m.id ∧
        row.genres = String.intercalate ", "
          ((movieGenreNames db m).filter
            (fun n => decide (pyLower n ∈ sel.map pyLower))) := by
  have hselE : sel.isEmpty = false := by
    cases sel with
    | nil => exact absurd rfl hne
    | cons a t => rfl
  cases mr with
  | none =>
    cases hyrs : yrs.isEmpty with
    | true =>
      cases req with
      | false =>
        simp only [applyFiltersQuery, hselE, hyrs, Bool.false_eq_true, eq_self_iff_true,
          if_false, if_true, ite_true, ite_false, Bool.not_false, Bool.and_true,
          Bool.and_false, Bool.true_and, Bool.false_and]
        rw [← List.filter_true (groupRows ((leftJoinRows db).filter
          (genreRowMatch (sel.map pyLower))))]
        exact c1_full db (sel.map pyLower) _ (fun _ => true)
          (fun r => (Bool.and_true _).symm) _ hids
      | true =>
        simp only [applyFiltersQuery, hselE, hyrs, Bool.false_eq_true, eq_self_iff_true,
          if_false, if_true, ite_true, ite_false, Bool.not_false, Bool.and_true,
          Bool.and_false, Bool.true_and, Bool.false_and]
        exact c1_full db (sel.map pyLower) _ (fun _ => true)
          (fun r => (Bool.and_true _).symm) _ hids
    | false =>
      cases req with
      | false =>
        simp only [applyFiltersQuery, hselE, hyrs, Bool.false_eq_true, eq_self_iff_true,
          if_false, if_true, ite_true, ite_false, Bool.not_false, Bool.and_true,
          Bool.and_false, Bool.true_and, Bool.false_and]
        rw [List.filter_filter]
        rw [← List.filter_true (groupRows ((leftJoinRows db).filter
          (fun a => decide (a.movie.year ∈ yrs) && genreRowMatch (sel.map pyLower) a)))]
        exact c1_full db (sel.map pyLower) _ (fun mv => decide (mv.year ∈ yrs))
          (fun r => Bool.and_comm _ _) _ hids
      | true =>
        simp only [applyFiltersQuery, hselE, hyrs, Bool.false_eq_true, eq_self_iff_true,
          if_false, if_true, ite_true, ite_false, Bool.not_false, Bool.and_true,
          Bool.and_false, Bool.true_and, Bool.false_and]
        rw [List.filter_filter]
        exact c1_full db (sel.map pyLower) _ (fun mv => decide (mv.year ∈ yrs))
          (fun r => Bool.and_comm _ _) _ hids
  | some q =>
    cases hyrs : yrs.isEmpty with
    | true =>
      cases req with
      | false =>
        simp only [applyFiltersQuery, hselE, hyrs, Bool.false_eq_true, eq_self_iff_true,
          if_false, if_true, ite_true, ite_false, Bool.not_false, Bool.and_true,
          Bool.and_false, Bool.true_and, Bool.false_and]
        rw [List.filter_filter]
        rw [← List.filter_true (groupRows ((leftJoinRows db).filter
          (fun a => decide (q ≤ a.movie.rating) && genreRowMatch (sel.map pyLower) a)))]
        exact c1_full db (sel.map pyLower) _ (fun mv => decide (q ≤ mv.rating))
          (fun r => Bool.and_comm _ _) _ hids
      | true =>
        simp only [applyFiltersQuery, hselE, hyrs, Bool.false_eq_true, eq_self_iff_true,
          if_false, if_true, ite_true, ite_false, Bool.not_false, Bool.and_true,
          Bool.and_false, Bool.true_and, Bool.false_and]
        rw [List.filter_filter]
        exact c1_full db (sel.map pyLower) _ (fun mv => decide (q ≤ mv.rating))
          (fun r => Bool.and_comm _ _) _ hids
    | false =>
      cases req with
      | false =>
        simp only [applyFiltersQuery, hselE, hyrs, Bool.false_eq_true, eq_self_iff_true,
          if_false, if_true, ite_true, ite_false, Bool.not_false, Bool.and_true,
          Bool.and_false, Bool.true_and, Bool.false_and]
        rw [List.filter_filter, List.filter_filter]
        rw [← List.filter_true (groupRows ((leftJoinRows db).filter
          (fun a => decide (q ≤ a.movie.rating) && decide (a.movie.year ∈ yrs) &&
            genreRowMatch (sel.map pyLower) a)))]
        exact c1_full db (sel.map pyLower) _
          (fun mv => decide (q ≤ mv.rating) && decide (mv.year ∈ yrs))
          (fun r => Bool.and_comm _ _) _ hids
      | true =>
        simp only [applyFiltersQuery, hselE, hyrs, Bool.false_eq_true, eq_self_iff_true,
          if_false, if_true, ite_true, ite_false, Bool.not_false, Bool.and_true,
          Bool.and_false, Bool.true_and, Bool.false_and]
        rw [List.filter_filter, List.filter_filter]
        exact c1_full db (sel.map pyLower) _
          (fun mv => decide (q ≤ mv.rating) && decide (mv.year ∈ yrs))
          (fun r => Bool.and_comm _ _) _ hids

/-- C1 witness: the amended claim instantiated at the demo store with the
filter `["action"]`. -/
theorem c1_witness :
    ((applyFiltersQuery demoDb ["action"] [] none false).map (fun r => r.id)).Nodup ∧
    ∀ row ∈ applyFiltersQuery demoDb ["action"] [] none false,
      ∃ m ∈ demoDb.movies, row.id = m.id ∧
        row.genres = String.intercalate ", "
          ((movieGenreNames demoDb m).filter
            (fun n => decide (pyLower n ∈ (["action"] : List String).map pyLower))) :=
  c1_dedup_and_matched_genres demoDb ["action"] [] none false (by decide) (by decide)

/-- C2 counterexample: movie 1 has every member of `["Action", "action"]`
among its genre names case-insensitively (the superset test of the claim
holds), yet ALL-mode returns the empty result, because
`COUNT(DISTINCT lower(Genre_name))` can never reach the length of a
selection list containing case-insensitive duplicates. -/
theorem c2_counterexample :
    hasAllGenres demoDb ⟨1, "M", 2000, mkRat 79 10⟩ ["Action", "action"] ∧
    applyFiltersQuery demoDb ["Action", "action"] [] none true = [] := by
  constructor
  · decide
  · decide

/-- C2 (amended): for non-empty selected genres that are pairwise distinct
case-insensitively, with no year filter and min rating unset, ALL-mode
`apply_filters` returns a movie iff the set of the movie's genre names,
compared case-insensitively, is a superset of the selected genres —
computed by counting distinct matching genre tags per movie and comparing
that count to the number of selected genres. -/
theorem c2_all_mode_superset (db : Database) (sel : List String) (m : Movie)
    (hne : sel ≠ []) (hnd : (sel.map pyLower).Nodup)
    (hids : (db.movies.map (fun x => x.id)).Nodup) (hm : m ∈ db.movies) :
    (∃ row ∈ applyFiltersQuery db sel [] none true, row.id = m.id) ↔
      hasAllGenres db m sel := by
  have hselE : sel.isEmpty = false := by
    cases sel with
    | nil => exact absurd rfl hne
    | cons a t => rfl
  simp only [applyFiltersQuery, hselE, List.isEmpty_nil, Bool.false_eq_true, if_false,
    if_true, Bool.not_false, Bool.and_true, Bool.true_and]
  set gp := genreRowMatch (sel.map pyLower) with hgp
  set hv : List JoinRow → Bool := fun g => decide (sel.length ≤ distinctLowerCount g) with hhv
  set R := (leftJoinRows db).filter gp with hR
  have hbridge : (movieJoinRows db m).filter gp ≠ [] ↔
      (movieGenreNames db m).filter
        (fun n => decide (pyLower n ∈ sel.map pyLower)) ≠ [] :=
    filter_genre_ne_nil_iff _ _
  have hcount : distinctLowerCount ((movieJoinRows db m).filter gp)
      = (((movieGenreNames db m).filter
          (fun n => decide (pyLower n ∈ sel.map pyLower))).map
            pyLower).dedup.length := by
    rw [distinctLowerCount, hgp, filterMap_gname_filter]
    rfl
  unfold hasAllGenres
  rw [← count_core (movieGenreNames db m) sel hne hnd]
  constructor
  · rintro ⟨row, hrow, hid⟩
    obtain ⟨k, hk, hcd, rfl⟩ := (mem_queryOutput R hv _).mp hrow
    rw [toResultRow_id hk] at hid
    subst hid
    rw [group_of_movie db gp hids hm] at hcd
    have hne' : (movieJoinRows db m).filter gp ≠ [] := (mem_ids_iff db gp hids hm).mp hk
    refine ⟨hbridge.mp hne', ?_⟩
    have := of_decide_eq_true hcd
    rwa [hcount] at this
  · rintro ⟨hmne, hcnt⟩
    have hne' : (movieJoinRows db m).filter gp ≠ [] := hbridge.mpr hmne
    have hk : m.id ∈ R.map (fun r => r.movie.id) := (mem_ids_iff db gp hids hm).mpr hne'
    have hcd : hv (R.filter (fun r => r.movie.id == m.id)) = true := by
      rw [hhv]
      rw [group_of_movie db gp hids hm]
      exact decide_eq_true (by rwa [hcount])
    refine ⟨toResultRow (R.filter (fun r => r.movie.id == m.id)), ?_, toResultRow_id hk⟩
    exact (mem_queryOutput R hv _).mpr ⟨m.id, hk, hcd, rfl⟩

/-- C2 witness: movie 1 (Action, Drama) is returned by ALL-mode filtering
on `["Action", "Drama"]` in the demo store. -/
theorem c2_witness :
    ∃ row ∈ applyFiltersQuery demoDb ["Action", "Drama"] [] none true, row.id = 1 :=
  (c2_all_mode_superset demoDb ["Action", "Drama"] ⟨1, "M", 2000, mkRat 79 10⟩
    (by decide) (by decide) (by decide) (by decide)).mpr (by decide)

/-- C3: for every store state, `apply_filters` with empty selected genres,
empty selected years, unset minimum rating and either match mode returns
exactly the rows of `fetch_all_movies`, in the same order. -/
theorem c3_empty_filters_fetch_all : ∀ (f : DBFile) (b : Bool),
    apply_filters f [] [] none b = fetch_all_movies f := by
  intro f b
  unfold apply_filters fetch_all_movies
  cases connect_db f with
  | error e => rfl
  | ok db =>
    show Except.ok (applyFiltersQuery db [] [] none b) = Except.ok (fetchAllQuery db)
    rw [applyFiltersQuery_nofilter]

/-- C4: for every non-empty selected-genres list and any years and minimum
rating, every row returned by `apply_filters` in ALL mode is also returned
by `apply_filters` in ANY mode with the same arguments (ALL is a narrowing
of ANY). -/
theorem c4_all_subset_any (db : Database) (sel : List String) (yrs : List Int)
    (mr : Option Rat) (hne : sel ≠ []) :
    ∀ r ∈ applyFiltersQuery db sel yrs mr true,
      r ∈ applyFiltersQuery db sel yrs mr false := by
  have hselE : sel.isEmpty = false := by
    cases sel with
    | nil => exact absurd rfl hne
    | cons a t => rfl
  intro r hr
  simp only [applyFiltersQuery, hselE, Bool.false_eq_true, eq_self_iff_true, if_false,
    if_true, ite_true, ite_false, Bool.not_false, Bool.and_true, Bool.and_false,
    Bool.true_and, Bool.false_and] at hr ⊢
  rw [mem_sortRows, List.mem_map] at hr ⊢
  obtain ⟨g, hg, rfl⟩ := hr
  exact ⟨g, List.mem_of_mem_filter hg, rfl⟩

/-- C4 witness: the ALL-mode row of movie 1 for `["Action", "Drama"]` also
appears in the ANY-mode result. -/
theorem c4_witness :
    (⟨1, "M", 2000, mkRat 79 10, "Action, Drama"⟩ : ResultRow)
      ∈ applyFiltersQuery demoDb ["Action", "Drama"] [] none false :=
  c4_all_subset_any demoDb ["Action", "Drama"] [] none (by decide)
    ⟨1, "M", 2000, mkRat 79 10, "Action, Drama"⟩ (by decide)

/-- C5: every result sequence of `fetch_all_movies` (`fetchAllQuery`) and
`apply_filters` (`applyFiltersQuery`) is ordered by year descending with
titles in non-decreasing lexicographic order within equal years: for any
row `a` preceding a row `b`, either `a.year > b.year`, or the years are
equal and `a.title ≤ b.title`. -/
theorem c5_result_ordering (db : Database) (sel : List String) (yrs : List Int)
    (mr : Option Rat) (req : Bool) :
    (fetchAllQuery db).Pairwise
      (fun a b => a.year > b.year ∨ (a.year = b.year ∧ a.title ≤ b.title)) ∧
    (applyFiltersQuery db sel yrs mr req).Pairwise
      (fun a b => a.year > b.year ∨ (a.year = b.year ∧ a.title ≤ b.title)) :=
  ⟨sortRows_pairwise _, sortRows_pairwise _⟩

/-- C6: the batch of selection tokens is interpreted as 1-based indices into
the displayed candidate list iff all tokens are digit strings (with
out-of-range indices dropped into the warning list and valid indices
resolving to the corresponding candidate); a batch containing any
non-numeric token is interpreted entirely in name mode, never per-token. -/
theorem c6_index_gate_all_or_nothing (available tokens : List String) :
    (tokens ≠ [] → tokens.all pyIsdigit = true →
      chooseGenres available tokens
        = (tokens.filterMap (indexResolve available),
           tokens.filter (fun t => (indexResolve available t).isNone))) ∧
    (tokens.all pyIsdigit = false →
      chooseGenres available tokens
        = (tokens.filterMap (nameResolve available),
           tokens.filter (fun t => (nameResolve available t).isNone))) := by
  constructor
  · intro hne hall
    have hemp : tokens.isEmpty = false := by
      cases tokens with
      | nil => exact absurd rfl hne
      | cons a t => rfl
    have hcond : (!tokens.isEmpty && tokens.all pyIsdigit) = true := by
      rw [hemp, hall, Bool.not_false, Bool.true_and]
    rw [chooseGenres, hcond]
    simp only [eq_self_iff_true, if_true, ite_true]
    rw [Prod.ext_iff]
    exact chooseByIndex_spec available tokens
  · intro hall
    have hcond : (!tokens.isEmpty && tokens.all pyIsdigit) = false := by
      rw [hall, Bool.and_false]
    rw [chooseGenres, hcond]
    simp only [Bool.false_eq_true, if_false, ite_false]
    rw [Prod.ext_iff]
    exact chooseByName_spec available tokens

/-- C6 witness: `"1,3"` resolves as indices to Action and Drama; the mixed
batch `"1, Comedy"` is resolved entirely in name mode, dropping `"1"` and
keeping Comedy. -/
theorem c6_witness :
    chooseGenres ["Action", "Comedy", "Drama"] ["1", "3"] = (["Action", "Drama"], []) ∧
    chooseGenres ["Action", "Comedy", "Drama"] ["1", "Comedy"] = (["Comedy"], ["1"]) := by
  constructor
  · rw [(c6_index_gate_all_or_nothing ["Action", "Comedy", "Drama"] ["1", "3"]).1
      (by decide) (by decide)]
    decide
  · rw [(c6_index_gate_all_or_nothing ["Action", "Comedy", "Drama"] ["1", "Comedy"]).2
      (by decide)]
    decide

/-- C7: each accessor fails with the store-unavailable error exactly when
the database file does not exist, succeeds exactly when it does, and an
empty store yields the normal empty sequence rather than an error. -/
theorem c7_store_unavailable_iff (f : DBFile) (sel : List String) (yrs : List Int)
    (mr : Option Rat) (req : Bool) :
    (((∃ l, get_available_genres f = .ok l) ↔ f.present = true) ∧
     (get_available_genres f = .error .storeUnavailable ↔ f.present = false)) ∧
    (((∃ l, get_available_years f = .ok l) ↔ f.present = true) ∧
     (get_available_years f = .error .storeUnavailable ↔ f.present = false)) ∧
    (((∃ l, fetch_all_movies f = .ok l) ↔ f.present = true) ∧
     (fetch_all_movies f = .error .storeUnavailable ↔ f.present = false)) ∧
    (((∃ l, apply_filters f sel yrs mr req = .ok l) ↔ f.present = true) ∧
     (apply_filters f sel yrs mr req = .error .storeUnavailable ↔ f.present = false)) ∧
    fetch_all_movies ⟨true, ⟨[], [], []⟩⟩ = .ok [] := by
  have hempty : fetch_all_movies ⟨true, ⟨[], [], []⟩⟩ = .ok [] := by
    simp [fetch_all_movies, connect_db, Except.map, fetchAllQuery, leftJoinRows,
      groupRows, dedupFirst, dedupFirstAux, sortRows]
  obtain ⟨p, db⟩ := f
  refine ⟨?_, ?_, ?_, ?_, hempty⟩ <;>
    cases p <;>
      simp [get_available_genres, get_available_years, fetch_all_movies, apply_filters,
        connect_db, Except.map]

/-- C8: every movie with zero genre associations appears in the result of
`fetch_all_movies` with genre annotation equal to the empty string. -/
theorem c8_zero_genres_empty_annotation (db : Database) (m : Movie)
    (hm : m ∈ db.movies)
    (hno : ∀ mg ∈ db.movie_genres, mg.movie_id ≠ m.id) :
    ∃ row ∈ fetchAllQuery db, row.id = m.id ∧ row.genres = "" := by
  obtain ⟨r0, hr0⟩ := List.exists_mem_of_ne_nil _ (movieJoinRows_ne_nil db m)
  have hk : m.id ∈ (leftJoinRows db).map (fun r => r.movie.id) :=
    List.mem_map.mpr ⟨r0, List.mem_flatMap.mpr ⟨m, hm, hr0⟩,
      by rw [movie_of_mem_movieJoinRows hr0]⟩
  have hnil : ((leftJoinRows db).filter (fun r => r.movie.id == m.id)).filterMap
      (fun x => x.gname) = [] := by
    rw [List.filterMap_eq_nil_iff]
    intro r hr
    cases hg : r.gname with
    | none => rfl
    | some n =>
      exfalso
      have hrl := List.mem_of_mem_filter hr
      have hid : r.movie.id = m.id := by simpa using (List.mem_filter.mp hr).2
      obtain ⟨mi, hmi, hrm⟩ := List.mem_flatMap.mp hrl
      obtain ⟨mg, hmg, hmgid⟩ := exists_mg_of_gname hrm hg
      have hrmov : r.movie = mi := movie_of_mem_movieJoinRows hrm
      exact hno mg hmg (by rw [hmgid, ← hrmov, hid])
  rw [fetchAllQuery_def]
  refine ⟨toResultRow ((leftJoinRows db).filter (fun r => r.movie.id == m.id)),
    (mem_queryOutput_all _ _).mpr ⟨m.id, hk, rfl⟩, toResultRow_id hk, ?_⟩
  rw [toResultRow_genres, hnil]
  rfl

/-- C8 witness: movie 3 of the demo store has no genre associations and
appears in `fetchAllQuery` with the empty annotation. -/
theorem c8_witness : ∃ row ∈ fetchAllQuery demoDb, row.id = 3 ∧ row.genres = "" :=
  c8_zero_genres_empty_annotation demoDb ⟨3, "Z", 2001, 6⟩ (by decide) (by decide)

set_option maxHeartbeats 1600000 in
/-- C9: with genre and year filters empty, a set minimum rating admits a
movie iff its rating is at least the minimum (inclusive lower bound), and
an unset minimum rating leaves the result identical to the unfiltered
query. -/
theorem c9_min_rating_inclusive (db : Database) (mr : Rat) (b : Bool) (m : Movie)
    (hids : (db.movies.map (fun x => x.id)).Nodup) (hm : m ∈ db.movies) :
    ((∃ row ∈ applyFiltersQuery db [] [] (some mr) b, row.id = m.id) ↔ mr ≤ m.rating) ∧
    applyFiltersQuery db [] [] none b = fetchAllQuery db := by
  refine ⟨?_, applyFiltersQuery_nofilter db b⟩
  rw [applyFiltersQuery_rating]
  constructor
  · rintro ⟨row, hrow, hid⟩
    obtain ⟨k, hk, rfl⟩ := (mem_queryOutput_all _ _).mp hrow
    rw [toResultRow_id hk] at hid
    subst hid
    have hne := (mem_ids_iff db _ hids hm).mp hk
    obtain ⟨r, hr⟩ := List.exists_mem_of_ne_nil _ hne
    have hp := (List.mem_filter.mp hr).2
    rw [movie_of_mem_movieJoinRows (List.mem_of_mem_filter hr)] at hp
    exact of_decide_eq_true hp
  · intro hrat
    have hfil : (movieJoinRows db m).filter (fun r => decide (mr ≤ r.movie.rating))
        = movieJoinRows db m := by
      apply List.filter_eq_self.mpr
      intro r hr
      rw [movie_of_mem_movieJoinRows hr]
      exact decide_eq_true hrat
    have hne : (movieJoinRows db m).filter (fun r => decide (mr ≤ r.movie.rating)) ≠ [] := by
      rw [hfil]
      exact movieJoinRows_ne_nil db m
    have hk : m.id ∈ ((leftJoinRows db).filter
        (fun r => decide (mr ≤ r.movie.rating))).map (fun r => r.movie.id) :=
      (mem_ids_iff db _ hids hm).mpr hne
    exact ⟨toResultRow (((leftJoinRows db).filter
        (fun r => decide (mr ≤ r.movie.rating))).filter (fun r => r.movie.id == m.id)),
      (mem_queryOutput_all _ _).mpr ⟨m.id, hk, rfl⟩, toResultRow_id hk⟩

/-- C9 witness: minimum rating 8 includes the movie rated exactly 8 and
excludes the movie rated exactly 7.9. -/
theorem c9_witness :
    (∃ row ∈ applyFiltersQuery demoDb [] [] (some 8) false, row.id = 2) ∧
    ¬ (∃ row ∈ applyFiltersQuery demoDb [] [] (some 8) false, row.id = 1) := by
  constructor
  · exact (c9_min_rating_inclusive demoDb 8 false ⟨2, "N", 1999, 8⟩
      (by decide) (by decide)).1.mpr (by decide)
  · intro h
    have := (c9_min_rating_inclusive demoDb 8 false ⟨1, "M", 2000, mkRat 79 10⟩
      (by decide) (by decide)).1.mp h
    exact absurd this (by decide)

/-- C10: index-mode genre resolution does not deduplicate — the batch
`"1,1"` over a non-empty candidate list yields the first candidate twice —
and any selected-genres list containing two case-insensitively equal
entries makes ALL-mode `apply_filters` return the empty result, since the
distinct-match count can never reach the list's length. -/
theorem c10_duplicate_selection :
    (∀ (g : String) (rest : List String),
      (chooseGenres (g :: rest) ["1", "1"]).1 = [g, g]) ∧
    (∀ (db : Database) (sel : List String) (yrs : List Int) (mr : Option Rat),
      ¬ (sel.map pyLower).Nodup → applyFiltersQuery db sel yrs mr true = []) := by
  constructor
  · intro g rest
    have hc : (!(["1", "1"] : List String).isEmpty
        && (["1", "1"] : List String).all pyIsdigit) = true := by decide
    have h1 : pyInt "1" = 1 := by decide
    rw [chooseGenres, hc]
    simp only [eq_self_iff_true, if_true, ite_true]
    simp [chooseByIndex, h1]
  · intro db sel yrs mr hdup
    have hne : sel ≠ [] := by
      rintro rfl
      exact hdup (by simp)
    have hselE : sel.isEmpty = false := by
      cases sel with
      | nil => exact absurd rfl hne
      | cons a t => rfl
    have key : ∀ (R : List JoinRow),
        (∀ x ∈ R, genreRowMatch (sel.map pyLower) x = true) →
        sortRows ((List.filter (fun g => decide (sel.length ≤ distinctLowerCount g))
          (groupRows R)).map toResultRow) = [] := by
      intro R hR
      have hfil : List.filter (fun g => decide (sel.length ≤ distinctLowerCount g))
          (groupRows R) = [] := by
        rw [List.filter_eq_nil_iff]
        intro g hg
        obtain ⟨k, hk, rfl⟩ := mem_groupRows.mp hg
        have hsubg : ∀ r ∈ R.filter (fun r => r.movie.id == k),
            genreRowMatch (sel.map pyLower) r = true :=
          fun r hr => hR r (List.mem_of_mem_filter hr)
        have := count_lt_of_dup sel _ hdup hsubg
        simp only [decide_eq_true_eq]
        omega
      rw [hfil]
      simp [sortRows]
    cases mr with
    | none =>
      cases hyrs : yrs.isEmpty with
      | true =>
        simp only [applyFiltersQuery, hselE, hyrs, Bool.false_eq_true, eq_self_iff_true,
          if_false, if_true, ite_true, ite_false, Bool.not_false, Bool.and_true,
          Bool.and_false, Bool.true_and, Bool.false_and]
        exact key _ (fun x hx => (List.mem_filter.mp hx).2)
      | false =>
        simp only [applyFiltersQuery, hselE, hyrs, Bool.false_eq_true, eq_self_iff_true,
          if_false, if_true, ite_true, ite_false, Bool.not_false, Bool.and_true,
          Bool.and_false, Bool.true_and, Bool.false_and]
        exact key _ (fun x hx =>
          (List.mem_filter.mp (List.mem_of_mem_filter hx)).2)
    | some q =>
      cases hyrs : yrs.isEmpty with
      | true =>
        simp only [applyFiltersQuery, hselE, hyrs, Bool.false_eq_true, eq_self_iff_true,
          if_false, if_true, ite_true, ite_false, Bool.not_false, Bool.and_true,
          Bool.and_false, Bool.true_and, Bool.false_and]
        exact key _ (fun x hx =>
          (List.mem_filter.mp (List.mem_of_mem_filter hx)).2)
      | false =>
        simp only [applyFiltersQuery, hselE, hyrs, Bool.false_eq_true, eq_self_iff_true,
          if_false, if_true, ite_true, ite_false, Bool.not_false, Bool.and_true,
          Bool.and_false, Bool.true_and, Bool.false_and]
        exact key _ (fun x hx =>
          (List.mem_filter.mp (List.mem_of_mem_filter (List.mem_of_mem_filter hx))).2)

/-- C10 witness: `"1,1"` over the demo genre list picks Action twice, and
ALL-mode filtering on `["Action", "action"]` returns no rows on the demo
store. -/
theorem c10_witness :
    (chooseGenres ["Action", "Comedy"] ["1", "1"]).1 = ["Action", "Action"] ∧
    applyFiltersQuery demoDb ["Action", "action"] [] none true = [] := by
  constructor
  · exact c10_duplicate_selection.1 "Action" ["Comedy"]
  · exact c10_duplicate_selection.2 demoDb ["Action", "action"] [] none (by decide)
